import Mathlib

/-!
# VaultBoard — verification of the access-control, content-protection,
# audit-statistics and expiration-classification logic

Shallow embedding of the decision components of the VaultBoard knowledge
management application:

* `checkEntryAccess` / `PERMISSION_MATRIX` / `CLASSIFICATION_ACCESS` —
  role-based access control (`src/unnamed/part_008`, access-control API).
* `maskSensitiveContent` — list-view masking (`src/unnamed/part_007` and the
  inline copy in `src/app/api/entries/route.ts`).
* `conditionalEncrypt` / `conditionalDecrypt` / `isEncrypted` — conditional
  content protection (`src/unnamed/part_006`, encryption utilities).  The
  external CryptoJS AES cipher is replaced by an executable model that
  preserves the properties the repository code depends on (output format and
  the inverse relation between encrypt and decrypt).
* `getEncryptionKey` — key provisioning (`src/unnamed/part_006`).
* `getAccessStats` — audit statistics (`src/lib/api/logs.ts`).
* expiration classification (`src/app/api/entries/expiring/route.ts` and
  `src/app/api/cron/check-expiring/route.ts`).

Theorems at the end settle the stated properties of these functions.
-/

/-! ## Role-based access control (src/unnamed/part_008) -/

/-- User roles, from `type UserRole` in the access-control API. -/
inductive UserRole where
  | admin
  | manager
  | member
  | viewer
deriving DecidableEq, Repr

/-- Entry classification levels, from `type Classification`. -/
inductive Classification where
  | public
  | internal
  | confidential
  | restricted
deriving DecidableEq, BEq, Repr

/-- Actions accepted by `checkEntryAccess` (`'view' | 'edit' | 'delete'`). -/
inductive EntryAction where
  | view
  | edit
  | delete
deriving DecidableEq, Repr

/-- Per-role default capabilities, the value type of `PERMISSION_MATRIX`. -/
structure Permissions where
  canCreate : Bool
  canEdit : Bool
  canDelete : Bool
  canViewSensitive : Bool
deriving DecidableEq, Repr

/-- Matrix `PERMISSION_MATRIX`: what each role can do by default
(`src/unnamed/part_008`, lines 38–43). -/
def PERMISSION_MATRIX : UserRole → Permissions
  | .admin => { canCreate := true, canEdit := true, canDelete := true, canViewSensitive := true }
  | .manager => { canCreate := true, canEdit := true, canDelete := false, canViewSensitive := true }
  | .member => { canCreate := true, canEdit := false, canDelete := false, canViewSensitive := false }
  | .viewer => { canCreate := false, canEdit := false, canDelete := false, canViewSensitive := false }

/-- Matrix `CLASSIFICATION_ACCESS`: which classifications each role can access
(`src/unnamed/part_008`, lines 48–53). -/
def CLASSIFICATION_ACCESS : UserRole → List Classification
  | .admin => [.public, .internal, .confidential, .restricted]
  | .manager => [.public, .internal, .confidential]
  | .member => [.public, .internal]
  | .viewer => [.public, .internal]

/-- The fields of a knowledge entry that `checkEntryAccess` reads
(`select('user_id, classification, is_sensitive')`). -/
structure EntryRecord where
  user_id : String
  classification : Classification
  is_sensitive : Bool
deriving DecidableEq, Repr

/-- Core of `checkEntryAccess` (`src/unnamed/part_008`, lines 84–118): the
decision taken once the user's role and the entry record have been fetched.
Mirrors the source line by line: owner branch first (with the special
delete check), then classification visibility, then the per-action rules. -/
def checkEntryAccessCore (userRole : UserRole) (entry : EntryRecord)
    (userId : String) (action : EntryAction) : Bool :=
  if entry.user_id = userId then
    if action = .delete then decide (userRole = .admin) || decide (entry.user_id = userId)
    else true
  else if !((CLASSIFICATION_ACCESS userRole).contains entry.classification) then
    false
  else if action = .view then
    if entry.is_sensitive && !(PERMISSION_MATRIX userRole).canViewSensitive then false
    else true
  else if action = .edit then
    (PERMISSION_MATRIX userRole).canEdit || decide (entry.user_id = userId)
  else if action = .delete then
    (PERMISSION_MATRIX userRole).canDelete
      || (decide (entry.user_id = userId) && decide (userRole ≠ .viewer))
  else false

/-- Function `checkEntryAccess` (`src/unnamed/part_008`, lines 63–123) including its
fail-closed guards: a missing stored role (`if (!userRole) return false`) or a
missing entry (`if (error || !entry) return false`) yield `false` before the
core decision runs. -/
def checkEntryAccess (userRole : Option UserRole) (entry : Option EntryRecord)
    (userId : String) (action : EntryAction) : Bool :=
  match userRole with
  | none => false
  | some role =>
    match entry with
    | none => false
    | some e => checkEntryAccessCore role e userId action

/-- Visible-classification sets exactly as the specification words them:
admin sees all four; manager sees public, internal, confidential; member and
viewer see public and internal. -/
def specVisible : UserRole → Classification → Prop
  | .admin, _ => True
  | .manager, c => c = .public ∨ c = .internal ∨ c = .confidential
  | .member, c => c = .public ∨ c = .internal
  | .viewer, c => c = .public ∨ c = .internal

/-- Statement "only admin and manager can view sensitive content", as the
specification words it. -/
def specCanViewSensitive (r : UserRole) : Prop := r = .admin ∨ r = .manager

/-- Roles with the "edit any" capability as the code's matrix actually grants
it: admin and manager (`PERMISSION_MATRIX`, `canEdit := true`). -/
def specCanEditAny (r : UserRole) : Prop := r = .admin ∨ r = .manager

/-! ## Content masking (src/unnamed/part_007, lines 70–78; the same code is
inlined in `src/app/api/entries/route.ts`, GET handler, lines 80–92) -/

/-- Function `maskSensitiveContent(content)`: contents of length ≤ 8 collapse to the
constant `"****"`; longer contents keep `substring(0, 4)` and
`substring(length - 4)` and replace the middle with
`'*'.repeat(Math.min(content.length - 8, 20))`. -/
def maskSensitiveContent (content : String) : String :=
  if content.length ≤ 8 then "****"
  else
    ⟨content.data.take 4
      ++ List.replicate (min (content.length - 8) 20) '*'
      ++ content.data.drop (content.length - 4)⟩

/-- The masking behaviour exactly as the claim words it for long contents: a
single mask-run width `w` that works for every content (a "fixed-width run").
`maskSensitiveContent` is compared against this statement. -/
def maskFixedWidthClaim : Prop :=
  ∃ w : Nat, ∀ X : String, 8 < X.length →
    maskSensitiveContent X =
      ⟨X.data.take 4 ++ List.replicate w '*' ++ X.data.drop (X.length - 4)⟩

/-! ## Audit-trail statistics (src/lib/api/logs.ts) -/

/-- Access log action types (`type AccessAction`).  `export` is a Lean
keyword, hence the constructor name `exportAction` for the source's
`'export'`. -/
inductive AccessAction where
  | view
  | create
  | update
  | delete
  | exportAction
deriving DecidableEq, BEq, Repr

/-- One `access_logs` row as `getAccessStats` reads it.  `accessed_by` is
nullable (system-initiated events); `accessed_at` is the event timestamp,
modelled as a number (ISO-8601 strings compare like their instants). -/
structure AccessLog where
  accessed_by : Option String
  action : AccessAction
  accessed_at : Nat
deriving DecidableEq, Repr

/-- The `AccessStats` result shape of `getAccessStats`. -/
structure AccessStats where
  total_views : Nat
  total_updates : Nat
  total_exports : Nat
  last_accessed_at : Option Nat
  most_accessed_by : Option String
  unique_users : Nat
deriving DecidableEq, Repr

/-- Most frequent non-null `accessed_by`, as `getAccessStats` computes it:
insertion-ordered counts sorted by count descending with a stable sort, first
key taken — i.e. the earliest-seen user among those with the maximal count. -/
def mostAccessedBy (logs : List AccessLog) : Option String :=
  let users := logs.filterMap (·.accessed_by)
  (users.eraseDups.foldl
    (fun best u =>
      match best with
      | none => some (u, (users.filter (· == u)).length)
      | some (b, cb) =>
          if (users.filter (· == u)).length > cb then some (u, (users.filter (· == u)).length)
          else some (b, cb))
    none).map (·.1)

/-- Function `getAccessStats` (`src/lib/api/logs.ts`, lines 140–212) as a function of
the list of `access_logs` rows the store returns for the entry.  The source
query carries no `order` clause, so the list order is whatever the store
returns; `last_accessed_at` is taken from `logs[0]`. -/
def getAccessStats (logs : List AccessLog) : AccessStats :=
  if logs.isEmpty then
    { total_views := 0, total_updates := 0, total_exports := 0
      last_accessed_at := none, most_accessed_by := none, unique_users := 0 }
  else
    { total_views := (logs.filter (fun l => l.action == .view)).length
      total_updates := (logs.filter (fun l => l.action == .update)).length
      total_exports := (logs.filter (fun l => l.action == .exportAction)).length
      last_accessed_at := logs.head?.map (·.accessed_at)
      most_accessed_by := mostAccessedBy logs
      unique_users := (logs.filterMap (·.accessed_by)).eraseDups.length }

/-- The store order `getAccessStats` would need for `logs[0]` to be the most
recent event: sorted by `accessed_at` descending (what `getAccessLogs` and
the access route request with `.order('accessed_at', ascending: false)`). -/
def sortedByTimeDesc (logs : List AccessLog) : Prop :=
  logs.Pairwise (fun a b => b.accessed_at ≤ a.accessed_at)

/-! ## Expiration classifier (src/app/api/entries/expiring/route.ts,
lines 53–68; identical thresholds in
src/app/api/cron/check-expiring/route.ts, lines 53–66) -/

/-- Expiration status labels of the expiring-entries route. -/
inductive ExpirationStatus where
  | expired
  | critical
  | warning
  | notice
deriving DecidableEq, Repr

/-- Milliseconds per day, the source's `1000 * 60 * 60 * 24`. -/
def msPerDay : Int := 1000 * 60 * 60 * 24

/-- Ceiling of the rational `a / b` for `b > 0`, computed on integers.
Models `Math.ceil(x / y)`; in the timestamp ranges the route handles the
floating-point division is exact enough that its ceiling agrees with the
exact one. -/
def ceilDiv (a b : Int) : Int := -((-a).ediv b)

/-- Computation `daysUntilExpiration` as both expiring routes run it:
`Math.ceil((expirationDate.getTime() - now.getTime()) / (1000*60*60*24))`,
with both instants as millisecond epoch timestamps. -/
def daysUntilExpiration (expirationMs nowMs : Int) : Int :=
  ceilDiv (expirationMs - nowMs) msPerDay

/-- The status cascade of the expiring routes: `< 0` expired, `≤ 7`
critical, `≤ 14` warning, else notice. -/
def classifyExpiration (expirationMs nowMs : Int) : ExpirationStatus :=
  if daysUntilExpiration expirationMs nowMs < 0 then .expired
  else if daysUntilExpiration expirationMs nowMs ≤ 7 then .critical
  else if daysUntilExpiration expirationMs nowMs ≤ 14 then .warning
  else .notice

/-! ## Content protection (src/unnamed/part_006)

`encryptText` / `decryptText` call the external CryptoJS library
(`CryptoJS.AES.encrypt(plainText, key).toString()` and
`CryptoJS.AES.decrypt(encryptedText, key).toString(CryptoJS.enc.Utf8)`).
The cipher itself is not part of this repository, so it is replaced below by
an executable model (`aesEncryptModel` / `aesDecryptModel`) that preserves
exactly the properties of the real library that the repository code relies
on: the ciphertext is a base64-alphabet string longer than 40 characters
(OpenSSL `Salted__` header plus salt plus at least one cipher block, base64
encoded — minimum 44 characters in the real library), decryption with the
same key restores the plaintext, and decryption of a malformed string or
with the wrong key fails.  Everything above that layer is embedded from the
source line by line. -/

/-- The base64-alphabet test of the source regex `/^[A-Za-z0-9+/]+={0,2}$/`:
character class of the mandatory part. -/
def isBase64Char (c : Char) : Bool :=
  c.isAlpha || c.isDigit || c == '+' || c == '/'

/-- Test `base64Pattern.test(text)` for the regex `/^[A-Za-z0-9+/]+={0,2}$/`:
one or more alphabet characters followed by at most two `=` padding
characters. -/
def base64PatternTest (s : String) : Bool :=
  let body := (s.data.reverse.dropWhile (· == '=')).reverse
  let pad := s.data.reverse.takeWhile (· == '=')
  decide (pad.length ≤ 2) && !body.isEmpty && body.all isBase64Char

/-- Function `isEncrypted` (`src/unnamed/part_006`, lines 78–85): empty strings are
not encrypted; otherwise the base64 shape check plus the
`text.length > 40` threshold. -/
def isEncrypted (text : String) : Bool :=
  if text = "" then false
  else base64PatternTest text && decide (text.length > 40)

/-- Lower-case hexadecimal digits, the byte alphabet of the cipher model. -/
def hexDigits : List Char := "0123456789abcdef".data

/-- Digit `n` as a hexadecimal character (`'0'` past the alphabet). -/
def hexDigitChar (n : Nat) : Char := hexDigits.getD n '0'

/-- Membership in the hexadecimal alphabet. -/
def isHexChar (c : Char) : Bool := hexDigits.contains c

/-- Numeric value of a lower-case hexadecimal character. -/
def hexVal (c : Char) : Nat := if 97 ≤ c.toNat then c.toNat - 87 else c.toNat - 48

/-- Big-endian value of a hexadecimal digit string. -/
def hexToNat (cs : List Char) : Nat := cs.foldl (fun a c => 16 * a + hexVal c) 0

/-- Value `n` written as exactly `w` big-endian hexadecimal digits. -/
def natToHex : Nat → Nat → List Char
  | 0, _ => []
  | w + 1, n => natToHex w (n / 16) ++ [hexDigitChar (n % 16)]

/-- Each character rendered as eight hexadecimal digits (every Unicode
scalar value fits in 32 bits). -/
def charsToHex : List Char → List Char
  | [] => []
  | c :: cs => natToHex 8 c.toNat ++ charsToHex cs

/-- Inverse of `charsToHex`: reads eight hexadecimal digits per character;
fails on malformed input. -/
def hexToChars (cs : List Char) : Option (List Char) :=
  if cs = [] then some []
  else if _h : 8 ≤ cs.length then
    if (cs.take 8).all isHexChar then
      match hexToChars (cs.drop 8) with
      | some rest => some (Char.ofNat (hexToNat (cs.take 8)) :: rest)
      | none => none
    else none
  else none
termination_by cs.length
decreasing_by simp only [List.length_drop]; omega

/-- Fixed 40-character base64 header of the model ciphertext, standing for
the base64 rendering of OpenSSL's `Salted__` magic plus the random salt that
CryptoJS prepends; it makes every model ciphertext exceed the 40-character
threshold of `isEncrypted`, as the real cipher's output does. -/
def saltHeader : List Char := "U2FsdGVkX19BQkNERUZHSDAxMjM0NTY3ODlhYmNk".data

/-- Model of `CryptoJS.AES.encrypt(plain, key).toString()`: header, a
key-dependent part, a separator outside the hexadecimal alphabet and the
hexadecimal rendering of the plaintext.  All output characters are in the
base64 alphabet and the output determines the plaintext exactly when the
same key is supplied. -/
def aesEncryptModel (key plain : String) : String :=
  ⟨saltHeader ++ charsToHex key.data ++ 'Z' :: charsToHex plain.data⟩

/-- Model of `CryptoJS.AES.decrypt(cipher, key).toString(Utf8)`: recovers
the plaintext from a well-formed model ciphertext produced under the same
key; yields `none` (the real library's garbage/empty output) on a malformed
string or a key mismatch. -/
def aesDecryptModel (key cipher : String) : Option String :=
  let cs := cipher.data
  if cs.take saltHeader.length = saltHeader then
    let rest := cs.drop saltHeader.length
    let keyHex := rest.takeWhile (· != 'Z')
    match rest.dropWhile (· != 'Z') with
    | 'Z' :: plainHex =>
      match hexToChars keyHex, hexToChars plainHex with
      | some kcs, some pcs => if kcs = key.data then some ⟨pcs⟩ else none
      | _, _ => none
    | _ => none
  else none

/-- Function `encryptText` (`src/unnamed/part_006`, lines 36–46): empty input returns
`''` before any cipher call; otherwise the AES encryption under `key`. -/
def encryptText (key plainText : String) : String :=
  if plainText = "" then "" else aesEncryptModel key plainText

/-- Function `decryptText` (`src/unnamed/part_006`, lines 54–70): empty input returns
`''`; an empty or failed decryption result raises, modelled as
`Except.error` with the message the source throws. -/
def decryptText (key encryptedText : String) : Except String String :=
  if encryptedText = "" then .ok ""
  else
    match aesDecryptModel key encryptedText with
    | some plainText =>
        if plainText = "" then .error "Failed to decrypt text" else .ok plainText
    | none => .error "Failed to decrypt text"

/-- Function `conditionalEncrypt` (`src/unnamed/part_006`, lines 94–97). -/
def conditionalEncrypt (key text : String) (isSensitive : Bool) : String :=
  if !isSensitive then text else encryptText key text

/-- Function `conditionalDecrypt` (`src/unnamed/part_006`, lines 106–118):
non-sensitive text unchanged; text that does not look encrypted unchanged;
otherwise decrypt, falling back to the stored text when decryption fails.
Total by construction — no error escapes to the caller. -/
def conditionalDecrypt (key text : String) (isSensitive : Bool) : String :=
  if !isSensitive then text
  else if !(isEncrypted text) then text
  else
    match decryptText key text with
    | .ok p => p
    | .error _ => text

/-! ## Key provisioning (src/unnamed/part_006, lines 14–28) -/

/-- The development fallback key literal of `getEncryptionKey`. -/
def DEV_FALLBACK_KEY : String := "dev-fallback-key-32chars-long!"

/-- The `if (!key)` branch of `getEncryptionKey`: throw in production,
return the development fallback otherwise. -/
def getEncryptionKeyFallback (nodeEnv : String) : Except String String :=
  if nodeEnv = "production" then
    .error "ENCRYPTION_SECRET_KEY must be set in production environment"
  else .ok DEV_FALLBACK_KEY

/-- Function `getEncryptionKey` as a function of `process.env.ENCRYPTION_SECRET_KEY`
(absent or a string; the empty string is falsy, like absence) and
`process.env.NODE_ENV`. -/
def getEncryptionKey (secret : Option String) (nodeEnv : String) : Except String String :=
  match secret with
  | none => getEncryptionKeyFallback nodeEnv
  | some key => if key = "" then getEncryptionKeyFallback nodeEnv else .ok key

/-- Key provisioning exactly as the claim words its first conjunct: with the
secret absent, every non-development environment fails fast.
`getEncryptionKey` is compared against this statement. -/
def keyFailsFastOutsideDevClaim : Prop :=
  ∀ nodeEnv : String, nodeEnv ≠ "development" →
    ∃ msg, getEncryptionKey none nodeEnv = .error msg

/-- A store result for one entry with two log rows, the second one more
recent — the order the store may return them in, since `getAccessStats`
queries without an `order` clause. -/
def unorderedLogsPair : List AccessLog :=
  [{ accessed_by := some "alice", action := .view, accessed_at := 100 },
   { accessed_by := some "bob", action := .update, accessed_at := 200 }]

/-! ## Helper lemmas -/

theorem natToHex_length (width n : Nat) : (natToHex width n).length = width := by
  induction width generalizing n with
  | zero => rfl
  | succ k ih => simp [natToHex, ih]

theorem hexVal_hexDigitChar {d : Nat} (h : d < 16) : hexVal (hexDigitChar d) = d := by
  interval_cases d <;> decide

theorem hexToNat_append_singleton (xs : List Char) (c : Char) :
    hexToNat (xs ++ [c]) = 16 * hexToNat xs + hexVal c := by
  simp [hexToNat, List.foldl_append]

theorem hexToNat_natToHex (w n : Nat) (h : n < 16 ^ w) :
    hexToNat (natToHex w n) = n := by
  induction w generalizing n with
  | zero =>
    simp only [pow_zero, Nat.lt_one_iff] at h
    subst h; rfl
  | succ w ih =>
    have hdiv : n / 16 < 16 ^ w := by
      rw [Nat.div_lt_iff_lt_mul (by norm_num)]
      calc n < 16 ^ (w + 1) := h
        _ = 16 ^ w * 16 := by ring
    rw [natToHex, hexToNat_append_singleton, ih _ hdiv,
      hexVal_hexDigitChar (Nat.mod_lt _ (by norm_num))]
    omega

theorem isHexChar_hexDigitChar (d : Nat) : isHexChar (hexDigitChar d) = true := by
  unfold hexDigitChar
  by_cases h : d < 16
  · interval_cases d <;> decide
  · rw [List.getD_eq_default]
    · decide
    · have h16 : hexDigits.length = 16 := by decide
      omega

theorem natToHex_all_hex (w n : Nat) : (natToHex w n).all isHexChar = true := by
  induction w generalizing n with
  | zero => rfl
  | succ w ih =>
    simp [natToHex, List.all_append, ih, isHexChar_hexDigitChar]

theorem charsToHex_all_hex (cs : List Char) : (charsToHex cs).all isHexChar = true := by
  induction cs with
  | nil => rfl
  | cons c cs ih => simp [charsToHex, List.all_append, natToHex_all_hex, ih]

theorem charsToHex_length (cs : List Char) : (charsToHex cs).length = 8 * cs.length := by
  induction cs with
  | nil => rfl
  | cons c cs ih => simp [charsToHex, natToHex_length, ih]; ring

theorem char_toNat_lt (c : Char) : c.toNat < 16 ^ 8 := by
  have := c.val.toBitVec.isLt
  simpa [Char.toNat, UInt32.toNat] using this

theorem hexToChars_charsToHex (cs : List Char) : hexToChars (charsToHex cs) = some cs := by
  induction cs with
  | nil => simp [charsToHex, hexToChars]
  | cons c cs ih =>
    have hlen : (natToHex 8 c.toNat).length = 8 := natToHex_length 8 c.toNat
    have hblock : charsToHex (c :: cs) = natToHex 8 c.toNat ++ charsToHex cs := rfl
    rw [hblock, hexToChars]
    have hne : natToHex 8 c.toNat ++ charsToHex cs ≠ [] := by
      intro hcontra
      have := congrArg List.length hcontra
      simp [hlen] at this
    rw [if_neg hne]
    have h8 : 8 ≤ (natToHex 8 c.toNat ++ charsToHex cs).length := by
      simp [hlen]
    rw [dif_pos h8]
    have htake : (natToHex 8 c.toNat ++ charsToHex cs).take 8 = natToHex 8 c.toNat := by
      rw [← hlen]; exact List.take_left _ _
    have hdrop : (natToHex 8 c.toNat ++ charsToHex cs).drop 8 = charsToHex cs := by
      rw [← hlen]; exact List.drop_left _ _
    rw [htake, hdrop, if_pos (natToHex_all_hex 8 c.toNat), ih,
      hexToNat_natToHex 8 c.toNat (char_toNat_lt c), Char.ofNat_toNat]

theorem takeWhile_append_cons {p : Char → Bool} (l1 : List Char) (x : Char) (l2 : List Char)
    (h1 : l1.all p = true) (h2 : p x = false) :
    (l1 ++ x :: l2).takeWhile p = l1 := by
  induction l1 with
  | nil => simp [List.takeWhile_cons, h2]
  | cons a l ih =>
    simp only [List.all_cons, Bool.and_eq_true] at h1
    simp [List.takeWhile_cons, h1.1, ih h1.2]

theorem dropWhile_append_cons {p : Char → Bool} (l1 : List Char) (x : Char) (l2 : List Char)
    (h1 : l1.all p = true) (h2 : p x = false) :
    (l1 ++ x :: l2).dropWhile p = x :: l2 := by
  induction l1 with
  | nil => simp [List.dropWhile_cons, h2]
  | cons a l ih =>
    simp only [List.all_cons, Bool.and_eq_true] at h1
    simp [List.dropWhile_cons, h1.1, ih h1.2]

theorem hex_ne_Z {c : Char} (h : isHexChar c = true) : (c != 'Z') = true := by
  have hall : hexDigits.all (fun c => c != 'Z') = true := by decide
  rw [List.all_eq_true] at hall
  exact hall c (by simpa [isHexChar, List.contains] using h)

theorem hex_isBase64 {c : Char} (h : isHexChar c = true) : isBase64Char c = true := by
  have hall : hexDigits.all isBase64Char = true := by decide
  rw [List.all_eq_true] at hall
  exact hall c (by simpa [isHexChar, List.contains] using h)

theorem aesDecryptModel_aesEncryptModel (key plain : String) :
    aesDecryptModel key (aesEncryptModel key plain) = some plain := by
  have hkeyhex := charsToHex_all_hex key.data
  have hkeyZ : (charsToHex key.data).all (fun c => c != 'Z') = true := by
    rw [List.all_eq_true] at hkeyhex ⊢
    exact fun c hc => hex_ne_Z (hkeyhex c hc)
  have htake : (saltHeader ++ charsToHex key.data ++ 'Z' :: charsToHex plain.data).take
      saltHeader.length = saltHeader := List.take_left _ _
  have hdrop : (saltHeader ++ charsToHex key.data ++ 'Z' :: charsToHex plain.data).drop
      saltHeader.length = charsToHex key.data ++ 'Z' :: charsToHex plain.data :=
    List.drop_left _ _
  unfold aesDecryptModel aesEncryptModel
  simp only [htake, hdrop, if_pos rfl]
  rw [takeWhile_append_cons _ _ _ hkeyZ (by decide),
    dropWhile_append_cons _ _ _ hkeyZ (by decide)]
  simp [hexToChars_charsToHex]

theorem takeWhile_eq_nil_of_all_not {p : Char → Bool} (l : List Char)
    (h : ∀ a ∈ l, p a = false) : l.takeWhile p = [] := by
  cases l with
  | nil => rfl
  | cons a l => simp [List.takeWhile_cons, h a (by simp)]

theorem dropWhile_eq_self_of_all_not {p : Char → Bool} (l : List Char)
    (h : ∀ a ∈ l, p a = false) : l.dropWhile p = l := by
  cases l with
  | nil => rfl
  | cons a l => simp [List.dropWhile_cons, h a (by simp)]

theorem base64PatternTest_of_all (cs : List Char) (hne : cs ≠ [])
    (hall : cs.all isBase64Char = true) : base64PatternTest ⟨cs⟩ = true := by
  have hnotEq : ∀ a ∈ cs.reverse, (a == '=') = false := by
    intro a ha
    rw [List.mem_reverse] at ha
    rw [List.all_eq_true] at hall
    have hb := hall a ha
    revert hb
    unfold isBase64Char
    rcases eq_or_ne a '=' with h | h
    · subst h; decide
    · intro _; simpa using h
  unfold base64PatternTest
  rw [takeWhile_eq_nil_of_all_not _ hnotEq, dropWhile_eq_self_of_all_not _ hnotEq]
  simp [hall, hne]

theorem aesEncryptModel_all_base64 (key plain : String) :
    (aesEncryptModel key plain).data.all isBase64Char = true := by
  have hhdr : saltHeader.all isBase64Char = true := by decide
  have hk := charsToHex_all_hex key.data
  have hp := charsToHex_all_hex plain.data
  rw [List.all_eq_true] at hhdr hk hp ⊢
  intro c hc
  simp only [aesEncryptModel, List.mem_append, List.mem_cons] at hc
  rcases hc with (h | h) | (h | h)
  · exact hhdr c h
  · exact hex_isBase64 (hk c h)
  · subst h; decide
  · exact hex_isBase64 (hp c h)

theorem saltHeader_length : saltHeader.length = 40 := by decide

theorem aesEncryptModel_length (key plain : String) :
    (aesEncryptModel key plain).length = 41 + 8 * key.length + 8 * plain.length := by
  show (saltHeader ++ charsToHex key.data ++ 'Z' :: charsToHex plain.data).length
    = 41 + 8 * key.data.length + 8 * plain.data.length
  rw [List.length_append, List.length_append, List.length_cons,
    charsToHex_length, charsToHex_length, saltHeader_length]
  omega

theorem isEncrypted_aesEncryptModel (key plain : String) :
    isEncrypted (aesEncryptModel key plain) = true := by
  have hlen := aesEncryptModel_length key plain
  have hne : aesEncryptModel key plain ≠ "" := by
    intro hcontra
    have h0 : (aesEncryptModel key plain).length = 0 := by rw [hcontra]; rfl
    omega
  unfold isEncrypted
  rw [if_neg hne]
  have hpat := base64PatternTest_of_all (aesEncryptModel key plain).data
    (by
      intro hcontra
      have h0 : (aesEncryptModel key plain).length = 0 := by
        show (aesEncryptModel key plain).data.length = 0
        rw [hcontra]; rfl
      omega)
    (aesEncryptModel_all_base64 key plain)
  have hpat2 : base64PatternTest (aesEncryptModel key plain) = true := hpat
  rw [hpat2]
  simp only [Bool.true_and, decide_eq_true_eq]
  omega

/-! ## Claim theorems -/

/-- C1: for every non-owner principal of role R and every entry of
classification C, `checkEntryAccess` for action `view` allows exactly when C
is in R's visible classification set (admin: all four; manager: public,
internal, confidential; member and viewer: public, internal) and the entry
is not sensitive or R can view sensitive content (admin and manager only). -/
theorem checkEntryAccess_nonowner_view_iff (role : UserRole) (e : EntryRecord)
    (uid : String) (h : e.user_id ≠ uid) :
    checkEntryAccessCore role e uid .view = true ↔
      (specVisible role e.classification ∧
        (e.is_sensitive = false ∨ specCanViewSensitive role)) := by
  obtain ⟨o, c, s⟩ := e
  simp only [EntryRecord.user_id] at h
  cases role <;> cases c <;> cases s <;>
    simp [checkEntryAccessCore, specVisible, specCanViewSensitive, h,
      PERMISSION_MATRIX, CLASSIFICATION_ACCESS] <;> decide

/-- Witness for C1: a non-owner viewer on a restricted, non-sensitive
entry. -/
theorem checkEntryAccess_nonowner_view_iff_witness :
    checkEntryAccessCore .viewer ⟨"creator", .restricted, false⟩ "reader" .view = true ↔
      (specVisible .viewer .restricted ∧ (false = false ∨ specCanViewSensitive .viewer)) :=
  checkEntryAccess_nonowner_view_iff .viewer ⟨"creator", .restricted, false⟩ "reader" (by decide)

/-- C2 counterexample: the claim says a non-owner manager is denied `edit`
on every entry, but `PERMISSION_MATRIX` grants `canEdit` to managers, so a
non-owner manager is allowed to edit a public non-sensitive entry. -/
theorem checkEntryAccess_manager_nonowner_edit_allowed :
    ("creator" : String) ≠ "mallory" ∧
    checkEntryAccessCore .manager ⟨"creator", .public, false⟩ "mallory" .edit = true := by
  decide

/-- C2 (amended): for every non-owner principal, `checkEntryAccess` for
action `edit` allows exactly when the entry's classification is in the
role's visible set and the role has the `canEdit` capability — which admin
and manager have, while member and viewer do not. -/
theorem checkEntryAccess_nonowner_edit_iff (role : UserRole) (e : EntryRecord)
    (uid : String) (h : e.user_id ≠ uid) :
    checkEntryAccessCore role e uid .edit = true ↔
      (specVisible role e.classification ∧ specCanEditAny role) := by
  obtain ⟨o, c, s⟩ := e
  simp only [EntryRecord.user_id] at h
  cases role <;> cases c <;> cases s <;>
    simp [checkEntryAccessCore, specVisible, specCanEditAny, h,
      PERMISSION_MATRIX, CLASSIFICATION_ACCESS] <;> decide

/-- Witness for the amended C2: a non-owner manager editing an internal
entry. -/
theorem checkEntryAccess_nonowner_edit_iff_witness :
    checkEntryAccessCore .manager ⟨"creator", .internal, false⟩ "editor" .edit = true ↔
      (specVisible .manager .internal ∧ specCanEditAny .manager) :=
  checkEntryAccess_nonowner_edit_iff .manager ⟨"creator", .internal, false⟩ "editor" (by decide)

/-- C3: when the principal owns the entry, `checkEntryAccess` allows `view`
and `edit` for every role, and allows `delete` exactly when the role is
admin or the principal is the owner — which is always the case here, so
every owner of any role can delete their own entry. -/
theorem checkEntryAccess_owner_rights (role : UserRole) (e : EntryRecord)
    (uid : String) (h : e.user_id = uid) :
    checkEntryAccessCore role e uid .view = true ∧
    checkEntryAccessCore role e uid .edit = true ∧
    (checkEntryAccessCore role e uid .delete = true ↔
      (role = .admin ∨ e.user_id = uid)) := by
  obtain ⟨o, c, s⟩ := e
  simp only [EntryRecord.user_id] at h
  simp [checkEntryAccessCore, h]

/-- Witness for C3: a viewer owning a restricted sensitive entry. -/
theorem checkEntryAccess_owner_rights_witness :
    checkEntryAccessCore .viewer ⟨"self", .restricted, true⟩ "self" .view = true ∧
    checkEntryAccessCore .viewer ⟨"self", .restricted, true⟩ "self" .edit = true ∧
    (checkEntryAccessCore .viewer ⟨"self", .restricted, true⟩ "self" .delete = true ↔
      (UserRole.viewer = .admin ∨ ("self" : String) = "self")) :=
  checkEntryAccess_owner_rights .viewer ⟨"self", .restricted, true⟩ "self" rfl

/-- C4: round-trip of content protection — for every key and plaintext,
`conditionalDecrypt (conditionalEncrypt P true) true = P`, and for nonempty
plaintexts the encrypted output passes the looks-encrypted heuristic. -/
theorem conditionalDecrypt_conditionalEncrypt_roundtrip (key plain : String) :
    conditionalDecrypt key (conditionalEncrypt key plain true) true = plain ∧
    (plain ≠ "" → isEncrypted (conditionalEncrypt key plain true) = true) := by
  by_cases hp : plain = ""
  · subst hp
    exact ⟨rfl, fun h => absurd rfl h⟩
  · have hce : conditionalEncrypt key plain true = aesEncryptModel key plain := by
      simp [conditionalEncrypt, encryptText, hp]
    have henc := isEncrypted_aesEncryptModel key plain
    refine ⟨?_, fun _ => by rw [hce]; exact henc⟩
    rw [hce]
    have hlen := aesEncryptModel_length key plain
    have hne : aesEncryptModel key plain ≠ "" := by
      intro hcontra
      have h0 : (aesEncryptModel key plain).length = 0 := by rw [hcontra]; rfl
      omega
    unfold conditionalDecrypt
    rw [if_neg (by simp), if_neg (by simp [henc])]
    unfold decryptText
    rw [if_neg hne, aesDecryptModel_aesEncryptModel]
    simp [hp]

/-- Witness for C4: round-trip of the plaintext `"hello"`. -/
theorem conditionalDecrypt_conditionalEncrypt_roundtrip_witness :
    conditionalDecrypt "k" (conditionalEncrypt "k" "hello" true) true = "hello" ∧
    isEncrypted (conditionalEncrypt "k" "hello" true) = true :=
  ⟨(conditionalDecrypt_conditionalEncrypt_roundtrip "k" "hello").1,
   (conditionalDecrypt_conditionalEncrypt_roundtrip "k" "hello").2 (by decide)⟩

/-- C5: `conditionalDecrypt` with `isSensitive = true` is total (it returns
a string for every stored text — its Lean type) and falls back to the
stored text verbatim both when the text does not look encrypted (fails the
base64 shape or the 40-character threshold) and when decryption of an
encrypted-looking text fails. -/
theorem conditionalDecrypt_total_fallback (key s : String) :
    ((base64PatternTest s = false ∨ s.length ≤ 40) → conditionalDecrypt key s true = s) ∧
    ((∃ msg, decryptText key s = .error msg) → conditionalDecrypt key s true = s) := by
  constructor
  · intro h
    have hnotenc : isEncrypted s = false := by
      unfold isEncrypted
      by_cases hs : s = ""
      · rw [if_pos hs]
      · rw [if_neg hs]
        rcases h with h | h
        · simp [h]
        · simp [Nat.not_lt.mpr h]
    unfold conditionalDecrypt
    rw [if_neg (by simp), if_pos (by simp [hnotenc])]
  · intro ⟨msg, hmsg⟩
    unfold conditionalDecrypt
    rw [if_neg (by simp)]
    by_cases henc : isEncrypted s
    · rw [if_neg (by simp [henc]), hmsg]
    · rw [if_pos (by simp [henc])]

/-- Witness for C5: a short string is returned unchanged, and a 44-character
base64-looking string whose decryption fails is returned verbatim. -/
theorem conditionalDecrypt_total_fallback_witness :
    conditionalDecrypt "k" "ab" true = "ab" ∧
    conditionalDecrypt "k" "AAAAAAAAAAAAAAAAAAAAAAAAAAAAAAAAAAAAAAAAAAAA" true
      = "AAAAAAAAAAAAAAAAAAAAAAAAAAAAAAAAAAAAAAAAAAAA" :=
  ⟨(conditionalDecrypt_total_fallback "k" "ab").1 (Or.inr (by decide)),
   (conditionalDecrypt_total_fallback "k" "AAAAAAAAAAAAAAAAAAAAAAAAAAAAAAAAAAAAAAAAAAAA").2
     ⟨"Failed to decrypt text", by rfl⟩⟩

/-- C6 counterexample: the mask run is not fixed-width — no single width
`w` reproduces `maskSensitiveContent` on all long contents, since the run
width is `min(len - 8, 20)` (1 star for a 9-character content, 3 stars for
an 11-character one). -/
theorem mask_not_fixed_width : ¬ maskFixedWidthClaim := by
  intro ⟨w, h⟩
  have h9 := h "123456789" (by decide)
  have h11 := h "12345678901" (by decide)
  have e9 : (maskSensitiveContent "123456789").data.length = 9 := by decide
  have e11 : (maskSensitiveContent "12345678901").data.length = 11 := by decide
  have h9len : (maskSensitiveContent "123456789").data.length
      = (List.take 4 "123456789".data ++ List.replicate w '*'
          ++ List.drop (("123456789" : String).length - 4) "123456789".data).length := by
    rw [h9]
  have h11len : (maskSensitiveContent "12345678901").data.length
      = (List.take 4 "12345678901".data ++ List.replicate w '*'
          ++ List.drop (("12345678901" : String).length - 4) "12345678901".data).length := by
    rw [h11]
  rw [e9] at h9len
  rw [e11] at h11len
  simp [show ("123456789" : String).length = 9 from by decide,
    show ("12345678901" : String).length = 11 from by decide] at h9len h11len
  omega

/-- C6 (amended): contents of length ≤ 8 mask to the constant length-4 token
`"****"`; longer contents keep their first 4 and last 4 characters verbatim
and have their entire middle replaced by a run of `'*'` of width
`min(len - 8, 20)` — variable, capped at 20 — so no middle character is
revealed. -/
theorem maskSensitiveContent_spec (X : String) :
    (X.length ≤ 8 → maskSensitiveContent X = "****") ∧
    (8 < X.length →
      (maskSensitiveContent X).data.take 4 = X.data.take 4 ∧
      (maskSensitiveContent X).data.drop ((maskSensitiveContent X).length - 4)
        = X.data.drop (X.length - 4) ∧
      ((maskSensitiveContent X).data.drop 4).take ((maskSensitiveContent X).length - 8)
        = List.replicate (min (X.length - 8) 20) '*' ∧
      (maskSensitiveContent X).length = 8 + min (X.length - 8) 20) := by
  constructor
  · intro h
    unfold maskSensitiveContent
    rw [if_pos h]
  · intro h
    have hXlen : X.data.length = X.length := rfl
    set t4 := X.data.take 4 with ht4def
    set rep := List.replicate (min (X.length - 8) 20) '*' with hrepdef
    set d4 := X.data.drop (X.length - 4) with hd4def
    have hmask : maskSensitiveContent X = ⟨t4 ++ rep ++ d4⟩ := by
      unfold maskSensitiveContent
      rw [if_neg (by omega)]
    have ht4 : t4.length = 4 := by
      rw [ht4def, List.length_take]; omega
    have hd4 : d4.length = 4 := by
      rw [hd4def, List.length_drop]; omega
    have hw : rep.length = min (X.length - 8) 20 := List.length_replicate _ _
    have hdata : (maskSensitiveContent X).data = t4 ++ rep ++ d4 := by rw [hmask]
    have hlen : (maskSensitiveContent X).length = 8 + min (X.length - 8) 20 := by
      show (maskSensitiveContent X).data.length = _
      rw [hdata, List.length_append, List.length_append, ht4, hd4, hw]
      omega
    refine ⟨?_, ?_, ?_, hlen⟩
    · rw [hdata, List.append_assoc, ← ht4, List.take_left]
    · rw [hdata, hlen]
      have harith : 8 + min (X.length - 8) 20 - 4 = (t4 ++ rep).length := by
        rw [List.length_append, ht4, hw]; omega
      rw [harith, List.drop_left]
    · rw [hdata, hlen, List.append_assoc, ← ht4, List.drop_left]
      have harith : 8 + min (X.length - 8) 20 - 8 = rep.length := by
        rw [hw]; omega
      rw [harith, List.take_left]

/-- Witness for the amended C6: the length-8 content masks to `"****"` and a
12-character content keeps its first 4 characters. -/
theorem maskSensitiveContent_spec_witness :
    maskSensitiveContent "12345678" = "****" ∧
    (maskSensitiveContent "123456789012").data.take 4 = ("123456789012" : String).data.take 4 :=
  ⟨(maskSensitiveContent_spec "12345678").1 (by decide),
   ((maskSensitiveContent_spec "123456789012").2 (by decide)).1⟩

/-- C7: the expiration classifier returns expired exactly for
`daysUntil < 0`, critical for `0 ≤ daysUntil ≤ 7`, warning for
`8 ≤ daysUntil ≤ 14` and notice for `daysUntil > 14`; in particular with
now = 2025-01-01 and expiration = 2025-01-05 (epoch milliseconds) the status
is critical, and with expiration = 2024-12-20 it is expired. -/
theorem classifyExpiration_thresholds (expMs nowMs : Int) :
    (classifyExpiration expMs nowMs = .expired ↔ daysUntilExpiration expMs nowMs < 0) ∧
    (classifyExpiration expMs nowMs = .critical ↔
      0 ≤ daysUntilExpiration expMs nowMs ∧ daysUntilExpiration expMs nowMs ≤ 7) ∧
    (classifyExpiration expMs nowMs = .warning ↔
      8 ≤ daysUntilExpiration expMs nowMs ∧ daysUntilExpiration expMs nowMs ≤ 14) ∧
    (classifyExpiration expMs nowMs = .notice ↔ 14 < daysUntilExpiration expMs nowMs) ∧
    daysUntilExpiration 1736035200000 1735689600000 = 4 ∧
    classifyExpiration 1736035200000 1735689600000 = .critical ∧
    daysUntilExpiration 1734652800000 1735689600000 = -12 ∧
    classifyExpiration 1734652800000 1735689600000 = .expired := by
  refine ⟨?_, ?_, ?_, ?_, by decide, by decide, by decide, by decide⟩ <;>
    (unfold classifyExpiration
     split_ifs with h1 h2 h3 <;> simp_all <;> omega)

/-- C8: `getAccessStats` reports `logs[0].accessed_at` as
`last_accessed_at` although its store query carries no order clause — on a
store result whose first row is the older one it reports 100 while the most
recent event in the records is at 200.  The per-action counts and the
distinct-principal count are computed as the claim states. -/
theorem getAccessStats_head_not_most_recent :
    (getAccessStats unorderedLogsPair).last_accessed_at = some 100 ∧
    (unorderedLogsPair.map (·.accessed_at)).foldl max 0 = 200 ∧
    (getAccessStats unorderedLogsPair).total_views = 1 ∧
    (getAccessStats unorderedLogsPair).total_updates = 1 ∧
    (getAccessStats unorderedLogsPair).unique_users = 2 :=
  ⟨rfl, rfl, rfl, rfl, rfl⟩

/-- C9 counterexample: with the secret absent, `getEncryptionKey` does not
fail fast in every non-development environment — in the `test` environment
it silently returns the development fallback key. -/
theorem getEncryptionKey_not_fail_fast_outside_dev : ¬ keyFailsFastOutsideDevClaim := by
  intro hclaim
  obtain ⟨msg, hmsg⟩ := hclaim "test" (by decide)
  have h2 : Except.ok (ε := String) DEV_FALLBACK_KEY = Except.error msg := hmsg
  exact Except.noConfusion h2

/-- C9 (amended): with the secret absent (or empty, which the source's
falsy check treats the same), obtaining the key fails fast exactly in
production and returns the fixed development fallback key in every other
environment; a present nonempty secret is used as the key. -/
theorem getEncryptionKey_spec (secret : Option String) (nodeEnv : String) :
    ((secret = none ∨ secret = some "") →
      (nodeEnv = "production" →
        getEncryptionKey secret nodeEnv
          = .error "ENCRYPTION_SECRET_KEY must be set in production environment") ∧
      (nodeEnv ≠ "production" → getEncryptionKey secret nodeEnv = .ok DEV_FALLBACK_KEY)) ∧
    (∀ k, secret = some k → k ≠ "" → getEncryptionKey secret nodeEnv = .ok k) := by
  constructor
  · intro habs
    constructor
    · intro hprod
      rcases habs with h | h <;> subst h <;> subst hprod <;>
        simp [getEncryptionKey, getEncryptionKeyFallback]
    · intro hnp
      rcases habs with h | h <;> subst h <;>
        simp [getEncryptionKey, getEncryptionKeyFallback, hnp]
  · intro k hk hne
    subst hk
    simp [getEncryptionKey, hne]

/-- Witness for the amended C9: missing secret in production fails, missing
secret in test yields the fallback, and a provided secret is returned. -/
theorem getEncryptionKey_spec_witness :
    getEncryptionKey none "production"
      = .error "ENCRYPTION_SECRET_KEY must be set in production environment" ∧
    getEncryptionKey none "test" = .ok DEV_FALLBACK_KEY ∧
    getEncryptionKey (some "s3cret") "production" = .ok "s3cret" :=
  ⟨((getEncryptionKey_spec none "production").1 (Or.inl rfl)).1 rfl,
   ((getEncryptionKey_spec none "test").1 (Or.inl rfl)).2 (by decide),
   (getEncryptionKey_spec (some "s3cret") "production").2 "s3cret" rfl (by decide)⟩

/-- C10: `checkEntryAccess` returns `false` for every principal and action
whenever the entry is missing from the store or the principal has no stored
role, and `false` is also what an authorization denial returns — the boolean
does not distinguish not-found from denial. -/
theorem checkEntryAccess_fail_closed (userRole : Option UserRole)
    (entry : Option EntryRecord) (userId : String) (action : EntryAction) :
    (userRole = none → checkEntryAccess userRole entry userId action = false) ∧
    (entry = none → checkEntryAccess userRole entry userId action = false) ∧
    checkEntryAccess (some .viewer) (some ⟨"creator", .restricted, false⟩) "reader" .view
      = false := by
  refine ⟨?_, ?_, by decide⟩
  · intro h; subst h; rfl
  · intro h; subst h; cases userRole <;> rfl

/-- Witness for C10: a missing role and a missing entry each yield
`false`. -/
theorem checkEntryAccess_fail_closed_witness :
    checkEntryAccess none (some ⟨"creator", .public, false⟩) "reader" .view = false ∧
    checkEntryAccess (some .admin) none "reader" .view = false :=
  ⟨(checkEntryAccess_fail_closed none (some ⟨"creator", .public, false⟩) "reader" .view).1 rfl,
   ((checkEntryAccess_fail_closed (some .admin) none "reader" .view).2).1 rfl⟩
